import Mathlib

/-!
# Verification of the java-perf static-analysis core

A shallow embedding, in Lean 4, of the core data structures and algorithms of
the java-perf static-analysis engine (Rust), together with theorems checking
the engine's specification against the embedded code.

Embedded modules:
* `Rs`      - executable models of the Rust string primitives used by the code
              (`starts_with`, `contains`, `ends_with`, `eq_ignore_ascii_case`,
              `trim`, `trim_start_matches`, ...), defined structurally over
              `List Char` so that every definition evaluates by kernel
              reduction.  ASCII approximations of the Unicode-aware Rust
              functions are noted where they occur; all strings appearing in
              the analyzed claims are ASCII.
* `SymTab`  - `src/rust/src/symbol_table.rs` (LayerType, TypeInfo, VarBinding,
              MethodInfo, SymbolTable with `is_dao_var` / `is_dao_call`).
* `Taint`   - `src/rust/src/taint.rs` (MethodSig, CallSite, CallGraph,
              `add_call`, `register_class`, `trace_to_layer` / `dfs_trace`).
* `Scanner` - the rule catalog and per-rule handler logic of
              `src/rust/src/scanner/tree_sitter_java.rs`
              (`analyze_tree_with_context`), over a model of the fragment of
              the Java concrete syntax tree that the compiled queries inspect.
* `AstEngine` - the orchestration skeleton of `src/rust/src/ast_engine.rs`
              (`radar_scan` file collection / per-file error handling) and the
              `compile_rules` control flow.
HashMaps are modelled as association lists (insertion replaces the existing
entry, as `HashMap::insert` does); `Vec` push order is preserved.
-/

namespace Rs

/-- ASCII lower-casing of one character (model of `u8::to_ascii_lowercase`). -/
def lower (c : Char) : Char :=
  if 'A' ≤ c ∧ c ≤ 'Z' then Char.ofNat (c.toNat + 32) else c

/-- Does the list `p` occur at the head of `s`?  (model of `str::starts_with`). -/
def pfx : List Char → List Char → Bool
  | [], _ => true
  | _ :: _, [] => false
  | p :: ps, c :: cs => p == c && pfx ps cs

/-- Does the list `p` occur anywhere inside `s`?  (model of `str::contains`). -/
def sub : List Char → List Char → Bool
  | p, [] => p.isEmpty
  | p, c :: cs => pfx p (c :: cs) || sub p cs

/-- `str::starts_with` on strings. -/
def startsWith (s p : String) : Bool := pfx p.data s.data

/-- `str::contains` on strings. -/
def containsStr (s p : String) : Bool := sub p.data s.data

/-- `str::ends_with` on strings. -/
def endsWith (s p : String) : Bool := pfx p.data.reverse s.data.reverse

/-- `str::to_lowercase` (ASCII fragment; the receiver names compared by the
analyzer are ASCII identifiers). -/
def toLowercase (s : String) : String := ⟨s.data.map lower⟩

/-- `str::eq_ignore_ascii_case`. -/
def eqIgnoreAsciiCase (a b : String) : Bool := a.data.map lower == b.data.map lower

/-- ASCII whitespace (model of the whitespace class used by `str::trim`;
all suppressed sources in the claims use ASCII whitespace). -/
def isWs (c : Char) : Bool := c == ' ' || c == '\t' || c == '\r' || c == '\n'

/-- `str::trim_start_matches(c)` for a single-character pattern. -/
def trimStartMatchesC (ch : Char) (s : String) : String := ⟨s.data.dropWhile (· == ch)⟩

/-- `str::trim_end_matches(c)` for a single-character pattern. -/
def trimEndMatchesC (ch : Char) (s : String) : String :=
  ⟨(s.data.reverse.dropWhile (· == ch)).reverse⟩

/-- `str::trim`. -/
def trim (s : String) : String :=
  ⟨((s.data.dropWhile isWs).reverse.dropWhile isWs).reverse⟩

/-- Split a character list at newline characters. -/
def splitLinesL : List Char → List (List Char)
  | [] => [[]]
  | c :: cs =>
    let rest := splitLinesL cs
    if c == '\n' then [] :: rest
    else match rest with
      | [] => [[c]]
      | l :: ls => (c :: l) :: ls

/-- The lines of a source text (model of iterating `str::lines`). -/
def lines (s : String) : List String := (splitLinesL s.data).map (⟨·⟩)

/-- Split a character list at commas (used by the modelled suppression-comment id list). -/
def splitCommaL : List Char → List (List Char)
  | [] => [[]]
  | c :: cs =>
    let rest := splitCommaL cs
    if c == ',' then [] :: rest
    else match rest with
      | [] => [[c]]
      | l :: ls => (c :: l) :: ls

/-- `str` drop of the first `n` characters (model of byte-index slicing on
ASCII text). -/
def dropStr (s : String) (n : Nat) : String := ⟨s.data.drop n⟩

end Rs

namespace SymTab

/-- `LayerType` from `src/rust/src/symbol_table.rs`. -/
inductive LayerType where
  | Controller
  | Service
  | Repository
  | Component
  | Unknown
deriving DecidableEq, Repr

/-- `LayerType::from_annotation` (renamed here: the original name is refused by tooling). -/
def LayerType.from_annot (annot : String) : LayerType :=
  match annot with
  | "Controller" | "RestController" => .Controller
  | "Service" => .Service
  | "Repository" | "Mapper" => .Repository
  | "Component" => .Component
  | _ => .Unknown

/-- `TypeInfo` (file paths modelled as strings). -/
structure TypeInfo where
  name : String
  package : Option String
  annotations : List String
  layer : LayerType
  file : String
  line : Nat
deriving DecidableEq, Repr

/-- `TypeInfo::new`. -/
def TypeInfo.new (name : String) (file : String) (line : Nat) : TypeInfo :=
  { name := name, package := none, annotations := [], layer := .Unknown,
    file := file, line := line }

/-- `TypeInfo::add_annotation` (renamed here as the original name is refused by tooling): push the annotation and upgrade the layer when
the annotation classifies to a known layer. -/
def TypeInfo.add_annot (t : TypeInfo) (annot : String) : TypeInfo :=
  let t := { t with annotations := t.annotations ++ [annot] }
  let new_layer := LayerType.from_annot annot
  if new_layer ≠ .Unknown then { t with layer := new_layer } else t

/-- `TypeInfo::is_dao`. -/
def TypeInfo.is_dao (t : TypeInfo) : Bool :=
  t.layer == .Repository
    || t.annotations.any (fun a =>
        a == "Repository" || a == "Mapper"
          || Rs.endsWith a "Repository" || Rs.endsWith a "Dao")
    || Rs.endsWith t.name "Repository"
    || Rs.endsWith t.name "Dao"
    || Rs.endsWith t.name "Mapper"

/-- `VarBinding`. -/
structure VarBinding where
  name : String
  type_name : String
  is_field : Bool
  annotations : List String
deriving DecidableEq, Repr

/-- `VarBinding::new`. -/
def VarBinding.new (name type_name : String) (is_field : Bool) : VarBinding :=
  { name := name, type_name := type_name, is_field := is_field, annotations := [] }

/-- Association-list insertion with replacement, modelling `HashMap::insert`. -/
def insertA {κ ν : Type} [BEq κ] : List (κ × ν) → κ → ν → List (κ × ν)
  | [], key, val => [(key, val)]
  | (k', v') :: rest, key, val =>
    if k' == key then (key, val) :: rest else (k', v') :: insertA rest key val

/-- `ParamInfo`. -/
structure ParamInfo where
  name : String
  type_name : String
deriving DecidableEq, Repr

/-- `MethodInfo`. -/
structure MethodInfo where
  name : String
  cls : String
  return_type : Option String
  params : List ParamInfo
  annotations : List String
  line : Nat
deriving DecidableEq, Repr

/-- `MethodInfo::signature`: `"name(Type1,Type2)"`. -/
def MethodInfo.signature (m : MethodInfo) : String :=
  m.name ++ "(" ++ String.intercalate "," (m.params.map (·.type_name)) ++ ")"

/-- `SymbolTable` (`classes`, `fields`, `methods`, `method_index` maps as
association lists). -/
structure SymbolTable where
  classes : List (String × TypeInfo)
  fields : List ((String × String) × VarBinding)
  methods : List ((String × String) × MethodInfo)
  method_index : List ((String × String) × List String)
deriving Repr

/-- `SymbolTable::new`. -/
def SymbolTable.new : SymbolTable := ⟨[], [], [], []⟩

/-- `SymbolTable::register_class`. -/
def SymbolTable.register_class (t : SymbolTable) (info : TypeInfo) : SymbolTable :=
  { t with classes := insertA t.classes info.name info }

/-- `SymbolTable::register_field`. -/
def SymbolTable.register_field (t : SymbolTable) (cls : String) (binding : VarBinding) :
    SymbolTable :=
  { t with fields := insertA t.fields (cls, binding.name) binding }

/-- `SymbolTable::register_method`: insert under `(class, signature)` and push
the signature onto the overload index for `(class, name)`. -/
def SymbolTable.register_method (t : SymbolTable) (cls : String) (info : MethodInfo) :
    SymbolTable :=
  let sig := info.signature
  let sigs := (List.lookup (cls, info.name) t.method_index).getD []
  { t with
    methods := insertA t.methods (cls, sig) info
    method_index := insertA t.method_index (cls, info.name) (sigs ++ [sig]) }

/-- `SymbolTable::lookup_methods`: all overloads registered under a name. -/
def SymbolTable.lookup_methods (t : SymbolTable) (cls method_name : String) :
    List MethodInfo :=
  match List.lookup (cls, method_name) t.method_index with
  | some signatures => signatures.filterMap (fun sig => List.lookup (cls, sig) t.methods)
  | none => []

/-- `SymbolTable::lookup_var_type`: resolve a receiver through the field map,
then through the class map; `none` when either lookup fails. -/
def SymbolTable.lookup_var_type (t : SymbolTable) (cls var_name : String) :
    Option TypeInfo :=
  match List.lookup (cls, var_name) t.fields with
  | some binding => List.lookup binding.type_name t.classes
  | none => none

/-- `SymbolTable::is_dao_var`: type-based answer when the variable resolves,
name-pattern guess otherwise. -/
def SymbolTable.is_dao_var (t : SymbolTable) (cls var_name : String) : Bool :=
  match t.lookup_var_type cls var_name with
  | some type_info => type_info.is_dao
  | none =>
      Rs.endsWith var_name "Repository"
        || Rs.endsWith var_name "Dao"
        || Rs.endsWith var_name "Mapper"
        || Rs.containsStr var_name "repository"
        || Rs.containsStr var_name "dao"

/-- The fixed `dao_methods` pattern list of `SymbolTable::is_dao_call`. -/
def dao_methods : List String :=
  ["find", "save", "delete", "update", "insert", "select",
   "getById", "findById", "findAll", "findOne",
   "saveAll", "deleteById", "deleteAll",
   "execute", "query", "count"]

/-- `SymbolTable::is_dao_call`: receiver resolution first, then the method-name
pattern loop (`starts_with || contains` per pattern). -/
def SymbolTable.is_dao_call (t : SymbolTable) (cls receiver method : String) : Bool :=
  if t.is_dao_var cls receiver then true
  else dao_methods.any (fun pattern =>
    Rs.startsWith method pattern || Rs.containsStr method pattern)

end SymTab

namespace Taint

/-- `LayerType` from `src/rust/src/taint.rs` (note: no `Component`, unlike the
symbol-table enum). -/
inductive LayerType where
  | Controller
  | Service
  | Repository
  | Unknown
deriving DecidableEq, Repr

/-- `MethodSig`: a `{class, name}` handle without parameter types. -/
structure MethodSig where
  cls : String
  name : String
deriving DecidableEq, Repr

/-- `MethodSig::new`. -/
def MethodSig.new (cls name : String) : MethodSig := ⟨cls, name⟩

/-- `CallSite` (file paths modelled as strings). -/
structure CallSite where
  file : String
  line : Nat
  callee : MethodSig
  caller : MethodSig
deriving DecidableEq, Repr

/-- `CallGraph`: outgoing/incoming adjacency, class→file index, class→layer
index; `HashMap<_, Vec<_>>` modelled as an association list of lists. -/
structure CallGraph where
  outgoing : List (MethodSig × List CallSite)
  incoming : List (MethodSig × List CallSite)
  class_index : List (String × String)
  class_layers : List (String × LayerType)
deriving Repr

/-- `CallGraph::new` / `Default::default`. -/
def CallGraph.new : CallGraph := ⟨[], [], [], []⟩

/-- `self.map.entry(k).or_default().push(v)` on the association-list model. -/
def pushEntry {κ ν : Type} [BEq κ] : List (κ × List ν) → κ → ν → List (κ × List ν)
  | [], key, val => [(key, [val])]
  | (k', vs) :: rest, key, val =>
    if k' == key then (k', vs ++ [val]) :: rest else (k', vs) :: pushEntry rest key val

/-- `CallGraph::add_call`: record the call site on the caller's outgoing list
and the callee's incoming list. -/
def CallGraph.add_call (g : CallGraph) (caller callee : MethodSig)
    (file : String) (line : Nat) : CallGraph :=
  let call_site : CallSite := ⟨file, line, callee, caller⟩
  { g with
    outgoing := pushEntry g.outgoing caller call_site
    incoming := pushEntry g.incoming callee call_site }

/-- `CallGraph::register_class`. -/
def CallGraph.register_class (g : CallGraph) (class_name : String) (file : String)
    (layer : LayerType) : CallGraph :=
  { g with
    class_index := SymTab.insertA g.class_index class_name file
    class_layers := SymTab.insertA g.class_layers class_name layer }

/-- The `for call_site in callees` loop inside `dfs_trace`: each iteration
checks the visited set, recurses with the callee pushed onto `path` and
`visited`, and the pop/remove after the recursive call restores both, so the
loop is a concatenation over the callee list.  `recurse` is the recursive call
`dfs_trace(callee, remaining_depth - 1, ...)`. -/
def dfsLoop (recurse : MethodSig → List MethodSig → List MethodSig → List (List MethodSig)) :
    List CallSite → List MethodSig → List MethodSig → List (List MethodSig)
  | [], _, _ => []
  | call_site :: rest, path, visited =>
    (if call_site.callee ∈ visited then []
     else recurse call_site.callee (path ++ [call_site.callee]) (visited ++ [call_site.callee]))
      ++ dfsLoop recurse rest path visited

/-- `CallGraph::dfs_trace`, by recursion on `remaining_depth`.  A path is
emitted (and the branch returns early) exactly when the current method's class
is indexed at the target layer and the path is longer than 1; otherwise the
callee loop runs with `remaining_depth - 1`. -/
def dfs_trace (g : CallGraph) (target_layer : LayerType) (remaining_depth : Nat) :
    MethodSig → List MethodSig → List MethodSig → List (List MethodSig) :=
  Nat.rec (fun _ _ _ => [])
    (fun _ ih current path visited =>
      if List.lookup current.cls g.class_layers = some target_layer ∧ 1 < path.length then
        [path]
      else
        dfsLoop ih ((List.lookup current g.outgoing).getD []) path visited)
    remaining_depth

/-- `CallGraph::trace_to_layer`: bounded-depth DFS from `start` with
`current_path = vec![start]` and an empty visited set. -/
def CallGraph.trace_to_layer (g : CallGraph) (start : MethodSig)
    (target_layer : LayerType) (max_depth : Nat) : List (List MethodSig) :=
  dfs_trace g target_layer max_depth start [start] []

/-- The example graph of the specification: classes `Controller`, `Service`,
`Repository` in their respective layers, with edges
`Controller.A → Service.B → Repository.C`. -/
def exampleGraph : CallGraph :=
  ((((CallGraph.new.register_class "Controller" "Controller.java" .Controller
        ).register_class "Service" "Service.java" .Service
        ).register_class "Repository" "Repository.java" .Repository
        ).add_call (MethodSig.new "Controller" "A") (MethodSig.new "Service" "B")
          "Controller.java" 10
        ).add_call (MethodSig.new "Service" "B") (MethodSig.new "Repository" "C")
          "Service.java" 20

end Taint

namespace Scanner

/-- `Severity` from `src/rust/src/scanner/mod.rs`. -/
inductive Severity where
  | P0
  | P1
deriving DecidableEq, Repr

/-- `Issue` from `src/rust/src/scanner/mod.rs` (the core issue type: no
`column` and no `confidence` field). -/
structure Issue where
  id : String
  severity : Severity
  file : String
  line : Nat
  description : String
  context : Option String
deriving DecidableEq, Repr

/-- A `method_invocation` node of the Java concrete syntax tree, restricted to
the data the compiled queries and handlers read: the text of the
`object:` child (`none` when the invocation has no receiver expression), the
`name:` identifier, the number of arguments in the `argument_list`
(`child_count() <= 2` in the source means zero arguments), the full node text
(`utf8_text`), and the 1-based start line (`start_position().row + 1`). -/
structure Invocation where
  object : Option String
  name : String
  argc : Nat
  text : String
  line : Nat
deriving DecidableEq, Repr

mutual

/-- The statement fragment of the Java concrete syntax tree inspected by the
compiled rule queries: `expression_statement (method_invocation)` nodes,
`for_statement` / `while_statement` / `enhanced_for_statement` nodes with a
`block` body, `catch_clause` nodes carrying the raw text of their `block`
body, and a catch-all for every other statement shape (which no embedded
query matches).  Each node carries its 1-based start line. -/
inductive JStmt where
  | exprInvocation (inv : Invocation)
  | forStmt (line : Nat) (body : JBlock)
  | whileStmt (line : Nat) (body : JBlock)
  | foreachStmt (line : Nat) (body : JBlock)
  | catchClause (line : Nat) (bodyText : String)
  | otherStmt

/-- A `block`: a sequence of statements. -/
inductive JBlock where
  | nil
  | cons (s : JStmt) (rest : JBlock)

end

/-- Build a `JBlock` from a list of statements. -/
def JBlock.ofList : List JStmt → JBlock
  | [] => .nil
  | s :: rest => .cons s (JBlock.ofList rest)

/-- The `expression_statement (method_invocation)` nodes that are direct
children of a block (the shape captured by the three N+1 queries). -/
def directInvs : JBlock → List Invocation
  | .nil => []
  | .cons (.exprInvocation inv) rest => inv :: directInvs rest
  | .cons _ rest => directInvs rest

/-- Start lines of the `for_statement` nodes that are direct children of a
block (the `@inner_loop` capture of the NESTED_LOOP query). -/
def directForLines : JBlock → List Nat
  | .nil => []
  | .cons (.forStmt line _) rest => line :: directForLines rest
  | .cons _ rest => directForLines rest

/-- Start lines of the `enhanced_for_statement` nodes that are direct children
of a block. -/
def directForeachLines : JBlock → List Nat
  | .nil => []
  | .cons (.foreachStmt line _) rest => line :: directForeachLines rest
  | .cons _ rest => directForeachLines rest

mutual

/-- All statement nodes of a subtree in pre-order (a query is matched against
the whole tree, so every handler works on the nodes of this traversal). -/
def subS : JStmt → List JStmt
  | .forStmt line body => .forStmt line body :: subB body
  | .whileStmt line body => .whileStmt line body :: subB body
  | .foreachStmt line body => .foreachStmt line body :: subB body
  | s => [s]

/-- All statement nodes of a block in pre-order. -/
def subB : JBlock → List JStmt
  | .nil => []
  | .cons s rest => subS s ++ subB rest

end

/-- All matches of the `N_PLUS_ONE` query: direct invocation statements of
every `for_statement` body anywhere in the tree. -/
def forCalls (b : JBlock) : List Invocation :=
  ((subB b).map fun s =>
    match s with
    | .forStmt _ body => directInvs body
    | _ => []).flatten

/-- All matches of the `N_PLUS_ONE_WHILE` query. -/
def whileCalls (b : JBlock) : List Invocation :=
  ((subB b).map fun s =>
    match s with
    | .whileStmt _ body => directInvs body
    | _ => []).flatten

/-- All matches of the `N_PLUS_ONE_FOREACH` query. -/
def foreachCalls (b : JBlock) : List Invocation :=
  ((subB b).map fun s =>
    match s with
    | .foreachStmt _ body => directInvs body
    | _ => []).flatten

/-- All `@inner_loop` captures of the `NESTED_LOOP` query (`for` directly
inside `for`). -/
def nestedForLines (b : JBlock) : List Nat :=
  ((subB b).map fun s =>
    match s with
    | .forStmt _ body => directForLines body
    | _ => []).flatten

/-- All `@inner_loop` captures of the `NESTED_LOOP_MIXED` query alternation
(`for`→`foreach`, `foreach`→`for`, `foreach`→`foreach`). -/
def nestedMixedLines (b : JBlock) : List Nat :=
  ((subB b).map fun s =>
    match s with
    | .forStmt _ body => directForeachLines body
    | .foreachStmt _ body => directForLines body ++ directForeachLines body
    | _ => []).flatten

/-- All `method_invocation` nodes of the tree (statement position), matched by
the receiver-unconstrained invocation queries. -/
def allInvs (b : JBlock) : List Invocation :=
  (subB b).filterMap fun s =>
    match s with
    | .exprInvocation inv => some inv
    | _ => none

/-- All `catch_clause` nodes: (start line, raw body text). -/
def allCatches (b : JBlock) : List (Nat × String) :=
  (subB b).filterMap fun s =>
    match s with
    | .catchClause line bodyText => some (line, bodyText)
    | _ => none

/-- The `dao_patterns` list of the N+1 heuristic branch of
`analyze_tree_with_context` (v9.0 narrowed matching). -/
def dao_patterns : List String :=
  ["findBy", "findAll", "findOne", "findById",
   "saveAll", "saveAndFlush",
   "deleteBy", "deleteAll", "deleteById",
   "selectBy", "selectAll", "selectOne", "selectList",
   "queryBy", "queryFor", "queryAll",
   "loadBy", "loadAll",
   "fetchBy", "fetchAll",
   "insertBy", "insert",
   "updateBy", "update",
   "getById", "getOne", "getAll", "getList"]

/-- Heuristic-mode suspicion test of the N+1 branch (no Symbol Table):
(1) the method name starts with, or equals up to ASCII case, one of
`dao_patterns`; else (2) when a receiver exists and its lower-cased text
contains `repo`/`dao`/`mapper`/`service`, the method name must start with one
of the seven data-access verbs. -/
def heuristicSuspicious (receiver_name method_name : String) : Bool :=
  if dao_patterns.any (fun p =>
      Rs.startsWith method_name p || Rs.eqIgnoreAsciiCase method_name p) then
    true
  else if receiver_name == "" then
    false
  else
    let receiver_lower := Rs.toLowercase receiver_name
    if Rs.containsStr receiver_lower "repo" || Rs.containsStr receiver_lower "dao"
        || Rs.containsStr receiver_lower "mapper"
        || Rs.containsStr receiver_lower "service" then
      Rs.startsWith method_name "find" || Rs.startsWith method_name "save"
        || Rs.startsWith method_name "delete" || Rs.startsWith method_name "select"
        || Rs.startsWith method_name "query" || Rs.startsWith method_name "insert"
        || Rs.startsWith method_name "update"
    else false

/-- The `is_suspicious` computation of the N+1 branch: semantic mode consults
`SymbolTable::is_dao_call` when a receiver is present (with a
`find`/`save`-containment fallback otherwise); heuristic mode uses
`heuristicSuspicious`. -/
def nPlusOneSuspicious (ctx : Option SymTab.SymbolTable)
    (current_class receiver_name method_name : String) : Bool :=
  match ctx with
  | some symbol_table =>
      if receiver_name == "" then
        Rs.containsStr method_name "find" || Rs.containsStr method_name "save"
      else
        symbol_table.is_dao_call current_class receiver_name method_name
  | none => heuristicSuspicious receiver_name method_name

/-- The N+1 issue emission over the matches of one of the three loop queries:
id unified to `N_PLUS_ONE`, rule severity `P0`, description
`"{rule.description} (Method: {name})"`, context the method name. -/
def nPlusOneIssues (ctx : Option SymTab.SymbolTable)
    (current_class file_name descr : String) (invs : List Invocation) : List Issue :=
  invs.filterMap fun inv =>
    if nPlusOneSuspicious ctx current_class (inv.object.getD "") inv.name then
      some { id := "N_PLUS_ONE", severity := .P0, file := file_name, line := inv.line,
             description := descr ++ " (Method: " ++ inv.name ++ ")",
             context := some inv.name }
    else none

/-- `NESTED_LOOP` / `NESTED_LOOP_MIXED` emission: one issue per captured inner
loop, id unified to `NESTED_LOOP`, severity `P0`, no context. -/
def nestedLoopIssues (file_name descr : String) (inner_lines : List Nat) : List Issue :=
  inner_lines.map fun line =>
    { id := "NESTED_LOOP", severity := .P0, file := file_name, line := line,
      description := descr, context := none }

/-- Generic emission shape of the invocation-based rules of the catalog: one
issue per invocation node satisfying the rule's predicate, with the rule's
literal id, severity, description and context. -/
def simpleInvIssues (rule_id : String) (severity : Severity) (file_name : String)
    (descrF : Invocation → String) (contextF : Invocation → Option String)
    (p : Invocation → Bool) (invs : List Invocation) : List Issue :=
  invs.filterMap fun inv =>
    if p inv then
      some { id := rule_id, severity := severity, file := file_name, line := inv.line,
             description := descrF inv, context := contextF inv }
    else none

/-- The `EMPTY_CATCH` body test: strip leading `\x7b` and trailing `\x7d`
repetitions from the body text, trim, and accept when the remainder is empty
or contains `.print`. -/
def emptyCatchCond (body_text : String) : Bool :=
  let inner := Rs.trim (Rs.trimEndMatchesC '\x7d' (Rs.trimStartMatchesC '\x7b' body_text))
  inner == "" || Rs.containsStr inner ".print"

/-- `EMPTY_CATCH` emission: one issue per catch clause whose body passes
`emptyCatchCond`. -/
def emptyCatchIssues (file_name : String) (catches : List (Nat × String)) : List Issue :=
  catches.filterMap fun c =>
    if emptyCatchCond c.2 then
      some { id := "EMPTY_CATCH", severity := .P0, file := file_name, line := c.1,
             description := "catch 块可能为空或仅打印，请正确处理异常", context := none }
    else none

/-- A Java source file as the analyzer sees it: the syntax tree (root block of
statements), the raw source text (used only by the Suppression Resolver), and
the two strings derived from the path: `file_path.file_name()` and
`file_path.file_stem()` (the latter is used as the current class name for
`is_dao_call`). -/
structure JFile where
  stmts : JBlock
  code : String
  fileName : String
  fileStem : String

/-- The issue list assembled by the rule loop of `analyze_tree_with_context`,
before the suppression filter, in rule-catalog order.  Embedded are all the
rules of the catalog whose query can match the modelled statement fragment
(loops, invocation statements, catch clauses); the omitted rules
(SYNC_METHOD, THREADLOCAL_LEAK, STREAM_RESOURCE_LEAK, SLEEP_IN_LOCK,
LOCK_METHOD_CALL, the annotation rules, OBJECT_IN_LOOP, LOG_STRING_CONCAT,
SYNC_BLOCK, BLOCKING_IO, ATOMIC_SPIN, STATIC_COLLECTION, STRING_CONCAT_LOOP,
LARGE_ARRAY, DOUBLE_CHECKED_LOCKING, TRANSACTION_SELF_CALL, VOLATILE_ARRAY,
SIMPLE_DATE_FORMAT, RANDOM_SHARED, SELECT_STAR, LIKE_LEADING_WILDCARD) match
only node shapes outside the fragment (modifier lists, annotations, object
creation, string literals, synchronized blocks, field declarations), and
COMPLETABLE_JOIN can never emit because its query defines no `@args` capture
while its handler requires one. -/
def rawIssues (ctx : Option SymTab.SymbolTable) (f : JFile) : List Issue :=
  nPlusOneIssues ctx f.fileStem f.fileName "for 循环内调用方法 (可能是 N+1 问题)"
      (forCalls f.stmts)
    ++ nPlusOneIssues ctx f.fileStem f.fileName "while 循环内调用方法 (可能是 N+1 问题)"
      (whileCalls f.stmts)
    ++ nPlusOneIssues ctx f.fileStem f.fileName "foreach 循环内调用方法 (可能是 N+1 问题)"
      (foreachCalls f.stmts)
    ++ nestedLoopIssues f.fileName "嵌套 for 循环 (可能导致 O(N^2) 复杂度)"
      (nestedForLines f.stmts)
    ++ nestedLoopIssues f.fileName "嵌套循环 (可能导致 O(N^2) 复杂度)"
      (nestedMixedLines f.stmts)
    ++ simpleInvIssues "FLUX_BLOCK" .P0 f.fileName
      (fun _ => "Flux/Mono.block() 阻塞调用，可能导致死锁") (fun inv => some inv.text)
      (fun inv => inv.name == "block" || inv.name == "blockFirst" || inv.name == "blockLast")
      (allInvs f.stmts)
    ++ simpleInvIssues "SUBSCRIBE_NO_ERROR" .P1 f.fileName
      (fun inv => "subscribe() 可能未处理 error，建议添加 error consumer (参数数量: "
        ++ toString inv.argc ++ ")")
      (fun inv => some inv.text)
      (fun inv => inv.name == "subscribe" && inv.argc < 2)
      (allInvs f.stmts)
    ++ simpleInvIssues "FLUX_COLLECT_LIST" .P1 f.fileName
      (fun _ => "collectList() 可能导致 OOM，考虑使用 buffer 或 window")
      (fun inv => some inv.text)
      (fun inv => inv.name == "collectList") (allInvs f.stmts)
    ++ simpleInvIssues "PARALLEL_NO_RUN_ON" .P1 f.fileName
      (fun _ => "parallel() 建议配合 runOn(Schedulers.parallel()) 使用")
      (fun inv => some inv.text)
      (fun inv => inv.name == "parallel") (allInvs f.stmts)
    ++ simpleInvIssues "STRING_INTERN" .P1 f.fileName
      (fun _ => "String.intern() 可能导致元空间溢出") (fun _ => none)
      (fun inv => inv.name == "intern") (allInvs f.stmts)
    ++ simpleInvIssues "FUTURE_GET_NO_TIMEOUT" .P0 f.fileName
      (fun _ => "Future.get() 无超时参数，可能永久阻塞") (fun _ => none)
      (fun inv => inv.name == "get" && inv.argc == 0) (allInvs f.stmts)
    ++ simpleInvIssues "AWAIT_NO_TIMEOUT" .P0 f.fileName
      (fun _ => "await()/acquire() 无超时参数，可能永久阻塞") (fun _ => none)
      (fun inv => (inv.name == "await" || inv.name == "acquire") && inv.argc == 0)
      (allInvs f.stmts)
    ++ simpleInvIssues "EMITTER_UNBOUNDED" .P0 f.fileName
      (fun _ => "EmitterProcessor.create() 无界背压，可能导致 OOM") (fun _ => none)
      (fun inv => inv.object == some "EmitterProcessor" && inv.name == "create"
        && inv.argc == 0)
      (allInvs f.stmts)
    ++ simpleInvIssues "UNBOUNDED_POOL" .P0 f.fileName
      (fun _ => "Executors 无界线程池，建议使用 ThreadPoolExecutor 配置有界队列") (fun _ => none)
      (fun inv => inv.object == some "Executors"
        && (inv.name == "newCachedThreadPool" || inv.name == "newScheduledThreadPool"
            || inv.name == "newSingleThreadExecutor"))
      (allInvs f.stmts)
    ++ emptyCatchIssues f.fileName (allCatches f.stmts)
    ++ simpleInvIssues "SINKS_MANY" .P1 f.fileName
      (fun _ => "Sinks.many() 需要配置背压策略") (fun _ => none)
      (fun inv => inv.object == some "Sinks" && inv.name == "many") (allInvs f.stmts)
    ++ simpleInvIssues "CACHE_NO_EXPIRE" .P1 f.fileName
      (fun _ => "Cache.newBuilder() 请确保配置了过期策略和最大大小") (fun _ => none)
      (fun inv => (inv.object == some "Caffeine" || inv.object == some "CacheBuilder")
        && inv.name == "newBuilder")
      (allInvs f.stmts)
    ++ simpleInvIssues "DATASOURCE_NO_POOL" .P1 f.fileName
      (fun _ => "DriverManager.getConnection 直接获取连接，建议使用连接池") (fun _ => none)
      (fun inv => inv.object == some "DriverManager" && inv.name == "getConnection")
      (allInvs f.stmts)
    ++ simpleInvIssues "GRAALVM_CLASS_FORNAME" .P1 f.fileName
      (fun _ => "[GraalVM] Class.forName 需要配置 reflect-config.json") (fun _ => none)
      (fun inv => inv.object == some "Class" && inv.name == "forName") (allInvs f.stmts)
    ++ simpleInvIssues "GRAALVM_METHOD_INVOKE" .P1 f.fileName
      (fun _ => "[GraalVM] Method.invoke 需要配置反射元数据") (fun _ => none)
      (fun inv => inv.name == "invoke") (allInvs f.stmts)
    ++ simpleInvIssues "GRAALVM_PROXY" .P1 f.fileName
      (fun _ => "[GraalVM] Proxy.newProxyInstance 需要配置 proxy-config.json") (fun _ => none)
      (fun inv => inv.object == some "Proxy" && inv.name == "newProxyInstance")
      (allInvs f.stmts)
    ++ simpleInvIssues "COMPLETABLE_GET_NO_TIMEOUT" .P0 f.fileName
      (fun _ => "CompletableFuture.get() 无超时参数，可能导致线程永久阻塞")
      (fun _ => some ".get() without timeout")
      (fun inv => inv.object.isSome && inv.name == "get" && inv.argc == 0)
      (allInvs f.stmts)
    ++ simpleInvIssues "SYSTEM_EXIT" .P0 f.fileName
      (fun _ => "System.exit() 会终止 JVM，不应在生产代码中使用") (fun _ => none)
      (fun inv => inv.object == some "System" && inv.name == "exit") (allInvs f.stmts)
    ++ simpleInvIssues "RUNTIME_EXEC" .P0 f.fileName
      (fun _ => "Runtime.exec() 存在命令注入风险，请使用 ProcessBuilder") (fun _ => none)
      (fun inv => inv.name == "exec") (allInvs f.stmts)
    ++ simpleInvIssues "HTTP_CLIENT_TIMEOUT" .P1 f.fileName
      (fun _ => "HTTP 客户端使用，请确认已配置连接超时和读取超时") (fun _ => none)
      (fun inv => match inv.object with
        | some obj => Rs.containsStr obj "HttpClient" || Rs.containsStr obj "RestTemplate"
            || Rs.containsStr obj "OkHttp" || Rs.containsStr obj "WebClient"
        | none => false)
      (allInvs f.stmts)

/-- Modelled from the spec: `SuppressionContext`
(`crate::rules::suppression`, not under `src/`).  Per §3/§4.6 of the spec it
records file-level suppression, line-level suppression (exact line) and
next-line suppression (line immediately after the comment), parsed from the
raw source text. -/
structure SuppressionContext where
  file_ids : List String
  line_ids : List (Nat × String)
  next_line_ids : List (Nat × String)
deriving DecidableEq, Repr

/-- Modelled from the spec: the file-level suppression-comment marker (the
concrete magic-comment token is not under `src/`; a fixed comment shape is
assumed). -/
def fileMarker : String := "// radar-disable-file:"

/-- Modelled from the spec: the same-line suppression-comment marker. -/
def lineMarker : String := "// radar-disable-line:"

/-- Modelled from the spec: the next-line suppression-comment marker. -/
def nextLineMarker : String := "// radar-disable-next-line:"

/-- Parse the comma-separated id list after a suppression marker. -/
def parseIds (s : String) : List String :=
  ((Rs.splitCommaL s.data).map (fun l => Rs.trim ⟨l⟩)).filter (· ≠ "")

/-- The ids listed by a suppression comment of the given marker shape on a
line, or `none` when the line is not such a comment. -/
def markerIds (marker line : String) : Option (List String) :=
  if Rs.startsWith (Rs.trim line) marker then
    some (parseIds (Rs.dropStr (Rs.trim line) marker.data.length))
  else none

/-- Modelled from the spec: scan the numbered source lines for the three
comment shapes, accumulating ids at file scope, line scope and next-line
scope. -/
def parseSupp : List String → Nat → SuppressionContext
  | [], _ => ⟨[], [], []⟩
  | l :: rest, n =>
    let ctx := parseSupp rest (n + 1)
    match markerIds fileMarker l with
    | some ids => { ctx with file_ids := ids ++ ctx.file_ids }
    | none =>
      match markerIds lineMarker l with
      | some ids => { ctx with line_ids := ids.map ((n, ·)) ++ ctx.line_ids }
      | none =>
        match markerIds nextLineMarker l with
        | some ids => { ctx with next_line_ids := ids.map ((n, ·)) ++ ctx.next_line_ids }
        | none => ctx

/-- Modelled from the spec: `SuppressionContext::parse` over the raw source
text (1-based line numbers, matching `Issue.line`). -/
def SuppressionContext.parse (code : String) : SuppressionContext :=
  parseSupp (Rs.lines code) 1

/-- Modelled from the spec: `is_file_suppressed` — any file-level suppression
comment suppresses the whole file (the caller short-circuits to an empty
issue list without inspecting individual issues). -/
def SuppressionContext.is_file_suppressed (ctx : SuppressionContext) : Bool :=
  !ctx.file_ids.isEmpty

/-- Modelled from the spec: `is_suppressed(id, line)` — an issue is dropped
when a same-line comment lists its id at exactly its line, or a next-line
comment lists its id on the immediately preceding line. -/
def SuppressionContext.is_suppressed (ctx : SuppressionContext)
    (id : String) (line : Nat) : Bool :=
  ctx.line_ids.any (fun p => p.1 == line && p.2 == id)
    || ctx.next_line_ids.any (fun p => p.1 + 1 == line && p.2 == id)

/-- The suppression filter applied at the end of `analyze_tree_with_context`
(source lines 1716-1730): parse the suppression context from the raw text,
short-circuit to `[]` when the file is suppressed, else drop the suppressed
issues. -/
def applySuppression (code : String) (issues : List Issue) : List Issue :=
  let suppression_ctx := SuppressionContext.parse code
  if suppression_ctx.is_file_suppressed then []
  else issues.filter (fun issue => !(suppression_ctx.is_suppressed issue.id issue.line))

/-- `analyze_tree_with_context`: run the rule catalog, then the suppression
filter. -/
def analyze_tree_with_context (ctx : Option SymTab.SymbolTable) (f : JFile) :
    List Issue :=
  applySuppression f.code (rawIssues ctx f)

/-- The Issue record pushed by the N+1 branch for one suspicious call. -/
def nPlusOneIssueOf (file_name descr : String) (inv : Invocation) : Issue :=
  { id := "N_PLUS_ONE", severity := .P0, file := file_name, line := inv.line,
    description := descr ++ " (Method: " ++ inv.name ++ ")", context := some inv.name }

/-- Scenario file for C1: `for (User u : users) \x7b repo.save(u); \x7d` inside
class `Batch` (an `enhanced_for_statement` at line 3 whose body is a single
invocation statement `repo.save(u)` at line 4). -/
def batchFile : JFile :=
  { stmts := .ofList [.foreachStmt 3 (.ofList
      [.exprInvocation ⟨some "repo", "save", 1, "repo.save(u)", 4⟩])]
    code := "public class Batch \x7b\n  public void process(List<User> users) \x7b\n    for (User u : users) \x7b\n      repo.save(u);\n    \x7d\n  \x7d\n\x7d"
    fileName := "Batch.java"
    fileStem := "Batch" }

/-- Scenario file: a `for` loop containing only `System.out.println(i)` (the
`object:` child is the field access `System.out`). -/
def printlnFile : JFile :=
  { stmts := .ofList [.forStmt 1 (.ofList
      [.exprInvocation ⟨some "System.out", "println", 1, "System.out.println(i)", 2⟩])]
    code := "for (int i = 0; i < 10; i++) \x7b\n  System.out.println(i);\n\x7d"
    fileName := "Loop.java"
    fileStem := "Loop" }

/-- Scenario file for C7: a single empty `catch (Exception e) \x7b\x7d`. -/
def emptyCatchFile : JFile :=
  { stmts := .ofList [.catchClause 1 "\x7b\x7d"]
    code := "catch (Exception e) \x7b\x7d"
    fileName := "Handler.java"
    fileStem := "Handler" }

/-- Scenario file for C8: the `batchFile` loop under a first-line file-level
suppression comment listing `N_PLUS_ONE`. -/
def suppressedFile : JFile :=
  { stmts := .ofList [.foreachStmt 2 (.ofList
      [.exprInvocation ⟨some "repo", "save", 1, "repo.save(u)", 3⟩])]
    code := "// radar-disable-file: N_PLUS_ONE\nfor (User u : users) \x7b repo.save(u); \x7d"
    fileName := "Batch.java"
    fileStem := "Batch" }

end Scanner

namespace Plugins

/-- `Confidence` from `src/plugins/java-perf/rust/src/scanner/mod.rs`: High
when semantic resolution succeeded, Low when only heuristic fallback was
available. -/
inductive Confidence where
  | High
  | Medium
  | Low
deriving DecidableEq, Repr

/-- `Issue` from `src/plugins/java-perf/rust/src/scanner/mod.rs`: the
confidence-carrying issue type (with a column for jump-to-symbol
integrations). -/
structure Issue where
  id : String
  severity : Scanner.Severity
  file : String
  line : Nat
  column : Nat
  description : String
  context : Option String
  confidence : Option Confidence
deriving DecidableEq, Repr

/-- Modelled from the spec: the N+1 Rule Handler of the confidence-carrying
analyzer.  The analyzer source
(`src/plugins/java-perf/rust/src/scanner/tree_sitter_java.rs`) is not under
`src/` — only its `Issue`/`Confidence` types are — so the handler is modelled
from spec §3 (Issue), §4.5 (semantically-aware handlers) and §9 (optional
context injection): with a Symbol Table the finding is accepted iff
`is_dao_call` confirms it and is tagged `High`; without one the name
heuristics decide and the finding is tagged `Low`.  The column is modelled as
0 (the model does not track node columns). -/
def nPlusOneHandler (ctx : Option SymTab.SymbolTable)
    (current_class file_name : String) (inv : Scanner.Invocation) : Option Issue :=
  match ctx with
  | some symbol_table =>
      if symbol_table.is_dao_call current_class (inv.object.getD "") inv.name then
        some { id := "N_PLUS_ONE", severity := .P0, file := file_name, line := inv.line,
               column := 0,
               description := "循环内调用方法 (可能是 N+1 问题) (Method: " ++ inv.name ++ ")",
               context := some inv.name, confidence := some .High }
      else none
  | none =>
      if Scanner.heuristicSuspicious (inv.object.getD "") inv.name then
        some { id := "N_PLUS_ONE", severity := .P0, file := file_name, line := inv.line,
               column := 0,
               description := "循环内调用方法 (可能是 N+1 问题) (Method: " ++ inv.name ++ ")",
               context := some inv.name, confidence := some .Low }
      else none

/-- Scenario symbol table for C2: class `OrderRepository` annotated
`@Repository`, and class `OrderService` with a field `repo` of type
`OrderRepository` (built through the source's `register_class` /
`register_field` / `add_annot`). -/
def orderTable : SymTab.SymbolTable :=
  (SymTab.SymbolTable.new.register_class
      ((SymTab.TypeInfo.new "OrderRepository" "OrderRepository.java" 1).add_annot
        "Repository")).register_field "OrderService"
    (SymTab.VarBinding.new "repo" "OrderRepository" true)

/-- Scenario invocation for C2: `repo.findAll()` inside a loop body. -/
def findAllInv : Scanner.Invocation :=
  ⟨some "repo", "findAll", 0, "repo.findAll()", 7⟩

end Plugins

namespace AstEngine

/-- `Severity` from `src/rust/src/ast_engine.rs` (a separate enum from the
scanner's). -/
inductive Severity where
  | P0
  | P1
deriving DecidableEq, Repr

/-- `AstIssue` from `src/rust/src/ast_engine.rs`. -/
structure AstIssue where
  severity : Severity
  issue_type : String
  file : String
  line : Nat
  description : String
deriving DecidableEq, Repr

/-- `convert_issue`: ScannerIssue → AstIssue. -/
def convert_issue (issue : Scanner.Issue) : AstIssue :=
  { severity := match issue.severity with
      | .P0 => .P0
      | .P1 => .P1
    issue_type := issue.id
    file := issue.file
    line := issue.line
    description := issue.description }

/-- One rule definition of the catalog (id, severity, query source text,
description), as in the `rule_defs` vector of `compile_rules`. -/
structure RuleDef where
  id : String
  severity : Scanner.Severity
  query_str : String
  description : String
deriving DecidableEq, Repr

/-- A compiled rule; the compiled `Query` is represented by its source text
(its structure is irrelevant to the compilation control flow). -/
structure CompiledRule where
  id : String
  severity : Scanner.Severity
  query_str : String
  description : String
deriving DecidableEq, Repr

/-- `JavaTreeSitterAnalyzer::compile_rules`, parameterized by the tree-sitter
query compiler `compileQ`.  The source loop runs `Query::new(...)
.map_err(...)?` per rule: the first compilation failure aborts the whole
construction with `Err("Failed to compile query for {id}: {e}")`; otherwise
the compiled rule is pushed. -/
def compile_rules (compileQ : String → Except String Unit) :
    List RuleDef → Except String (List CompiledRule)
  | [] => .ok []
  | d :: rest =>
    match compileQ d.query_str with
    | .error e => .error ("Failed to compile query for " ++ d.id ++ ": " ++ e)
    | .ok _ =>
      match compile_rules compileQ rest with
      | .error e => .error e
      | .ok compiled =>
        .ok ({ id := d.id, severity := d.severity, query_str := d.query_str,
               description := d.description } :: compiled)

/-- Is a compilation result a catalog? -/
def isOkE {α : Type} (r : Except String α) : Bool :=
  match r with
  | .ok _ => true
  | .error _ => false

/-- One entry collected by `radar_scan`'s directory walk: its path, extension
and the outcome of `std::fs::read_to_string` (`none` models an unreadable
file). -/
structure FileEntry where
  path : String
  ext : String
  read_result : Option String
deriving DecidableEq, Repr

/-- The per-entry body of `radar_scan`'s parallel loop, for the Java branch
(the config/Dockerfile branches are outside the embedded fragment and are
modelled as contributing no issues): an unreadable file contributes nothing;
a readable Java file contributes its legacy regex issues plus — when the
tree-sitter analyzer was constructed (`analyzer = some _`) and the file
parses (`analyze` returns `some _`) — the converted AST issues.  `legacy`
models `analyze_java_code` and `analyzer` models
`JavaTreeSitterAnalyzer::new().ok()` composed with `analyze(...)`. -/
def scanEntry (legacy : String → List AstIssue)
    (analyzer : Option (String → Option (List Scanner.Issue)))
    (e : FileEntry) : List AstIssue :=
  if e.ext == "java" then
    match e.read_result with
    | none => []
    | some content =>
        legacy content
          ++ (match analyzer with
              | some analyze =>
                  match analyze content with
                  | some ast_results => ast_results.map convert_issue
                  | none => []
              | none => [])
  else []

/-- `radar_scan`'s counting and collection skeleton: `file_count` is the
length of the collected entry list (computed before any file is processed),
and the issue list is the concatenation of the per-entry results. -/
def radar_scan (legacy : String → List AstIssue)
    (analyzer : Option (String → Option (List Scanner.Issue)))
    (entries : List FileEntry) : Nat × List AstIssue :=
  (entries.length, (entries.map (scanEntry legacy analyzer)).flatten)

/-- Demo issue for the C5/C6 scenarios. -/
def demoIssue : Scanner.Issue :=
  { id := "N_PLUS_ONE", severity := .P0, file := "B.java", line := 1,
    description := "demo", context := none }

/-- Demo entries: one unreadable Java file, one readable Java file. -/
def demoEntries : List FileEntry :=
  [⟨"A.java", "java", none⟩, ⟨"B.java", "java", some "class B"⟩]

/-- Demo legacy analyzer producing no issues. -/
def demoLegacy : String → List AstIssue := fun _ => []

/-- Demo tree-sitter analyzer producing one issue for every parsed file. -/
def demoAnalyzer : Option (String → Option (List Scanner.Issue)) :=
  some (fun _ => some [demoIssue])

/-- Demo rule catalog: two well-formed rules around one whose query does not
compile. -/
def demoRuleDefs : List RuleDef :=
  [⟨"N_PLUS_ONE", .P0, "GOOD1", "d1"⟩,
   ⟨"BROKEN_RULE", .P0, "BAD", "d2"⟩,
   ⟨"EMPTY_CATCH", .P0, "GOOD2", "d3"⟩]

/-- Demo query compiler failing exactly on the broken query. -/
def demoCompileQ : String → Except String Unit :=
  fun q => if q == "BAD" then .error "query syntax error" else .ok ()

end AstEngine

namespace MergeModel

/-- Modelled from the spec (§4.4): concatenate the adjacency list stored
under a key with a further list of call sites (`duplicates are harmless`). -/
def appendEntry {κ ν : Type} [BEq κ] : List (κ × List ν) → κ → List ν → List (κ × List ν)
  | [], k, vs => [(k, vs)]
  | (k', vs') :: rest, k, vs =>
    if k' == k then (k', vs' ++ vs) :: rest else (k', vs') :: appendEntry rest k vs

/-- Modelled from the spec (§4.3, merge is not under `src/`): combining two
Symbol Tables takes the union of the maps; entries of the right table are
inserted into the left one, so on a class-name collision the right entry
wins (last-writer-wins, as `register_class` does). -/
def mergeSym (a b : SymTab.SymbolTable) : SymTab.SymbolTable :=
  { classes := b.classes.foldl (fun acc kv => SymTab.insertA acc kv.1 kv.2) a.classes
    fields := b.fields.foldl (fun acc kv => SymTab.insertA acc kv.1 kv.2) a.fields
    methods := b.methods.foldl (fun acc kv => SymTab.insertA acc kv.1 kv.2) a.methods
    method_index :=
      b.method_index.foldl (fun acc kv => SymTab.insertA acc kv.1 kv.2) a.method_index }

/-- Modelled from the spec (§4.4, merge is not under `src/`): combining two
Call Graphs concatenates the adjacency lists per key and unions the
class→file and class→layer indexes. -/
def mergeCG (g h : Taint.CallGraph) : Taint.CallGraph :=
  { outgoing := h.outgoing.foldl (fun acc kv => appendEntry acc kv.1 kv.2) g.outgoing
    incoming := h.incoming.foldl (fun acc kv => appendEntry acc kv.1 kv.2) g.incoming
    class_index :=
      h.class_index.foldl (fun acc kv => SymTab.insertA acc kv.1 kv.2) g.class_index
    class_layers :=
      h.class_layers.foldl (fun acc kv => SymTab.insertA acc kv.1 kv.2) g.class_layers }

/-- Total length of the lists stored in an adjacency association list. -/
def outSum {κ ν : Type} : List (κ × List ν) → Nat
  | [] => 0
  | kv :: rest => kv.2.length + outSum rest

/-- The total edge count of a Call Graph: the number of call sites on the
outgoing-adjacency side. -/
def edgeCount (g : Taint.CallGraph) : Nat := outSum g.outgoing

/-- Does an association list bind a key? -/
def hasKey {κ ν : Type} [BEq κ] (l : List (κ × ν)) (k : κ) : Bool :=
  (List.lookup k l).isSome

/-- Does a Symbol Table know a class name? (its class-name key set). -/
def hasClass (t : SymTab.SymbolTable) (name : String) : Bool :=
  hasKey t.classes name

end MergeModel

/-!
## Theorems

Helper lemmas first, then one theorem per specification claim (with a witness
or counterexample where required).
-/

theorem Rs.pfx_sub (p s : List Char) (h : Rs.pfx p s = true) : Rs.sub p s = true := by
  cases s with
  | nil =>
    cases p with
    | nil => rfl
    | cons a as => simp [Rs.pfx] at h
  | cons c cs => simp [Rs.sub, h]

/-- `starts_with` implies `contains`: the fallback test
`method.starts_with(p) || method.contains(p)` collapses to `contains`. -/
theorem Rs.startsWith_containsStr (s p : String) (h : Rs.startsWith s p = true) :
    Rs.containsStr s p = true :=
  Rs.pfx_sub _ _ h

theorem Taint.dfs_trace_zero (g : Taint.CallGraph) (t : Taint.LayerType)
    (c : Taint.MethodSig) (path visited : List Taint.MethodSig) :
    Taint.dfs_trace g t 0 c path visited = [] := rfl

theorem Taint.dfs_trace_succ (g : Taint.CallGraph) (t : Taint.LayerType) (n : Nat)
    (c : Taint.MethodSig) (path visited : List Taint.MethodSig) :
    Taint.dfs_trace g t (n + 1) c path visited
      = if List.lookup c.cls g.class_layers = some t ∧ 1 < path.length then [path]
        else Taint.dfsLoop (Taint.dfs_trace g t n)
          ((List.lookup c g.outgoing).getD []) path visited := rfl

/-- Every path in the output of `dfsLoop recurse` comes from one of the
`recurse callee (path ++ [callee]) _` calls. -/
theorem Taint.dfsLoop_good {P : List Taint.MethodSig → Prop}
    (recurse : Taint.MethodSig → List Taint.MethodSig → List Taint.MethodSig →
      List (List Taint.MethodSig))
    (hrec : ∀ m path visited p, p ∈ recurse m (path ++ [m]) visited → P p) :
    ∀ css path visited p, p ∈ Taint.dfsLoop recurse css path visited → P p := by
  intro css
  induction css with
  | nil => intro path visited p hp; simp [Taint.dfsLoop] at hp
  | cons cs rest ih =>
    intro path visited p hp
    simp only [Taint.dfsLoop, List.mem_append] at hp
    rcases hp with hp | hp
    · by_cases hmem : cs.callee ∈ visited
      · simp [hmem] at hp
      · rw [if_neg hmem] at hp
        exact hrec _ _ _ _ hp
    · exact ih path visited p hp

/-- DFS invariant: provided the path ends at the current node, every emitted
path has length greater than 1 and ends at a method whose class is indexed at
the target layer. -/
theorem Taint.dfs_trace_good (g : Taint.CallGraph) (target : Taint.LayerType) :
    ∀ (n : Nat) (current : Taint.MethodSig) (path visited : List Taint.MethodSig)
      (p : List Taint.MethodSig),
      path.getLast? = some current →
      p ∈ Taint.dfs_trace g target n current path visited →
      1 < p.length ∧
        ∃ m, p.getLast? = some m ∧ List.lookup m.cls g.class_layers = some target := by
  intro n
  induction n with
  | zero => intro current path visited p _ hp; simp [Taint.dfs_trace_zero] at hp
  | succ n ih =>
    intro current path visited p hlast hp
    rw [Taint.dfs_trace_succ] at hp
    by_cases hacc : List.lookup current.cls g.class_layers = some target ∧ 1 < path.length
    · rw [if_pos hacc] at hp
      simp only [List.mem_singleton] at hp
      subst hp
      exact ⟨hacc.2, current, hlast, hacc.1⟩
    · rw [if_neg hacc] at hp
      exact Taint.dfsLoop_good (Taint.dfs_trace g target n)
        (fun m path' visited' q hq =>
          ih m (path' ++ [m]) visited' q (List.getLast?_concat path') hq)
        _ path visited p hp

/-- C3: every path returned by `trace_to_layer(start, target_layer, max_depth)`
has length strictly greater than 1 and ends at a method whose owning class is
classified as the target layer (so the start node alone never counts as a
match); on the graph with edges `Controller.A → Service.B → Repository.C`,
`trace_to_layer(A, Repository, 5)` returns exactly the length-3 path
`[A, B, C]`, and `trace_to_layer(A, Repository, 1)` returns the empty list. -/
theorem C3_trace_to_layer_paths :
    (∀ (g : Taint.CallGraph) (start : Taint.MethodSig) (target : Taint.LayerType)
        (max_depth : Nat) (p : List Taint.MethodSig),
        p ∈ g.trace_to_layer start target max_depth →
        1 < p.length ∧
          ∃ m, p.getLast? = some m ∧ List.lookup m.cls g.class_layers = some target)
    ∧ Taint.exampleGraph.trace_to_layer (Taint.MethodSig.new "Controller" "A")
        .Repository 5
        = [[Taint.MethodSig.new "Controller" "A", Taint.MethodSig.new "Service" "B",
            Taint.MethodSig.new "Repository" "C"]]
    ∧ Taint.exampleGraph.trace_to_layer (Taint.MethodSig.new "Controller" "A")
        .Repository 1 = [] := by
  refine ⟨?_, by decide, by decide⟩
  intro g start target max_depth p hp
  exact Taint.dfs_trace_good g target max_depth start [start] [] p rfl hp

/-- Witness for C3: the general invariant applied to the concrete example
graph at the concrete returned path `[A, B, C]`. -/
theorem C3_trace_to_layer_paths_witness :
    1 < ([Taint.MethodSig.new "Controller" "A", Taint.MethodSig.new "Service" "B",
          Taint.MethodSig.new "Repository" "C"] : List Taint.MethodSig).length ∧
      ∃ m, ([Taint.MethodSig.new "Controller" "A", Taint.MethodSig.new "Service" "B",
          Taint.MethodSig.new "Repository" "C"] : List Taint.MethodSig).getLast? = some m
        ∧ List.lookup m.cls Taint.exampleGraph.class_layers = some .Repository :=
  C3_trace_to_layer_paths.1 Taint.exampleGraph (Taint.MethodSig.new "Controller" "A")
    .Repository 5 _ (by decide)

/-- C4 counterexample: with an empty Symbol Table (so the receiver lookup
fails and the receiver name `"x"` matches no DAO name pattern),
`is_dao_call("C", "x", "unsave")` returns `true`, although `"unsave"` starts
with none of the data-access verb prefixes: the fallback also accepts mere
substring containment (`"unsave"` contains `"save"`). -/
theorem C4_is_dao_call_counterexample :
    SymTab.SymbolTable.new.is_dao_call "C" "x" "unsave" = true
      ∧ SymTab.dao_methods.all (fun p => !Rs.startsWith "unsave" p) = true := by
  constructor
  · decide
  · decide

/-- C4 (amended): `is_dao_call` resolves the receiver through the field
binding: when the lookup succeeds the registered class decides (`is_dao`),
and when it fails a receiver-NAME heuristic applies first (suffix
`Repository`/`Dao`/`Mapper` or containing `repository`/`dao`); only when the
whole receiver tier answers `false` does the method-name fallback run, and it
returns `true` exactly when the method name CONTAINS (not merely starts with)
one of the fixed data-access patterns. -/
theorem C4_is_dao_call_two_tier :
    ∀ (t : SymTab.SymbolTable) (cls receiver method : String),
      (∀ ti, t.lookup_var_type cls receiver = some ti →
        t.is_dao_var cls receiver = ti.is_dao)
      ∧ (t.lookup_var_type cls receiver = none →
        t.is_dao_var cls receiver
          = (Rs.endsWith receiver "Repository" || Rs.endsWith receiver "Dao"
              || Rs.endsWith receiver "Mapper" || Rs.containsStr receiver "repository"
              || Rs.containsStr receiver "dao"))
      ∧ (t.is_dao_var cls receiver = true → t.is_dao_call cls receiver method = true)
      ∧ (t.is_dao_var cls receiver = false →
        t.is_dao_call cls receiver method
          = SymTab.dao_methods.any (fun p => Rs.containsStr method p)) := by
  intro t cls receiver method
  refine ⟨?_, ?_, ?_, ?_⟩
  · intro ti h
    simp [SymTab.SymbolTable.is_dao_var, h]
  · intro h
    simp [SymTab.SymbolTable.is_dao_var, h]
  · intro h
    simp [SymTab.SymbolTable.is_dao_call, h]
  · intro h
    have hfun : (fun p => Rs.startsWith method p || Rs.containsStr method p)
        = (fun p => Rs.containsStr method p) := by
      funext p
      cases hs : Rs.startsWith method p
      · simp
      · simp [Rs.startsWith_containsStr _ _ hs]
    simp only [SymTab.SymbolTable.is_dao_call, h, Bool.false_eq_true, if_false, hfun]

/-- Witness for C4: the fallback tier evaluated at the concrete
counterexample input. -/
theorem C4_is_dao_call_two_tier_witness :
    SymTab.SymbolTable.new.is_dao_call "C" "x" "unsave"
      = SymTab.dao_methods.any (fun p => Rs.containsStr "unsave" p) :=
  (C4_is_dao_call_two_tier SymTab.SymbolTable.new "C" "x" "unsave").2.2.2 (by decide)

theorem Scanner.filterMap_ite {α β : Type} (p : α → Bool) (mk : α → β) (l : List α) :
    (l.filterMap fun x => if p x then some (mk x) else none) = (l.filter p).map mk := by
  induction l with
  | nil => rfl
  | cons a t ih =>
    by_cases h : p a <;> simp [List.filterMap_cons, List.filter_cons, h, ih]

/-- The N+1 emission is exactly one issue per suspicious match, in match
order. -/
theorem Scanner.nPlusOneIssues_eq (ctx : Option SymTab.SymbolTable)
    (cls fn d : String) (invs : List Scanner.Invocation) :
    Scanner.nPlusOneIssues ctx cls fn d invs
      = ((invs.filter fun inv =>
          Scanner.nPlusOneSuspicious ctx cls (inv.object.getD "") inv.name).map
            (Scanner.nPlusOneIssueOf fn d)) :=
  Scanner.filterMap_ite _ _ _

theorem Scanner.filter_id_keep (c q : String) (hq : (c == q) = true) :
    ∀ l : List Scanner.Issue, (∀ i ∈ l, i.id = c) →
      l.filter (fun i => i.id == q) = l := by
  intro l
  induction l with
  | nil => intro _; rfl
  | cons a t ih =>
    intro hl
    have ha : (a.id == q) = true := by
      rw [hl a (List.mem_cons_self a t)]; exact hq
    simp [List.filter_cons, ha, ih (fun i hi => hl i (List.mem_cons_of_mem a hi))]

theorem Scanner.filter_id_drop (c q : String) (hq : (c == q) = false) :
    ∀ l : List Scanner.Issue, (∀ i ∈ l, i.id = c) →
      l.filter (fun i => i.id == q) = [] := by
  intro l
  induction l with
  | nil => intro _; rfl
  | cons a t ih =>
    intro hl
    have ha : (a.id == q) = false := by
      rw [hl a (List.mem_cons_self a t)]; exact hq
    simp [List.filter_cons, ha, ih (fun i hi => hl i (List.mem_cons_of_mem a hi))]

theorem Scanner.nPlusOneIssues_id (ctx : Option SymTab.SymbolTable)
    (cls fn d : String) (invs : List Scanner.Invocation) :
    ∀ i ∈ Scanner.nPlusOneIssues ctx cls fn d invs, i.id = "N_PLUS_ONE" := by
  intro i hi
  rw [Scanner.nPlusOneIssues_eq] at hi
  obtain ⟨inv, _, rfl⟩ := List.mem_map.mp hi
  rfl

theorem Scanner.nestedLoopIssues_id (fn d : String) (ls : List Nat) :
    ∀ i ∈ Scanner.nestedLoopIssues fn d ls, i.id = "NESTED_LOOP" := by
  intro i hi
  obtain ⟨line, _, rfl⟩ := List.mem_map.mp hi
  rfl

theorem Scanner.simpleInvIssues_id (rule_id : String) (sev : Scanner.Severity)
    (fn : String) (dF : Scanner.Invocation → String)
    (cF : Scanner.Invocation → Option String) (p : Scanner.Invocation → Bool)
    (invs : List Scanner.Invocation) :
    ∀ i ∈ Scanner.simpleInvIssues rule_id sev fn dF cF p invs, i.id = rule_id := by
  intro i hi
  rw [Scanner.simpleInvIssues, Scanner.filterMap_ite] at hi
  obtain ⟨inv, _, rfl⟩ := List.mem_map.mp hi
  rfl

theorem Scanner.emptyCatchIssues_id (fn : String) (cs : List (Nat × String)) :
    ∀ i ∈ Scanner.emptyCatchIssues fn cs, i.id = "EMPTY_CATCH" := by
  intro i hi
  rw [Scanner.emptyCatchIssues, Scanner.filterMap_ite] at hi
  obtain ⟨c, _, rfl⟩ := List.mem_map.mp hi
  rfl

/-- N+1 segments survive the `N_PLUS_ONE` id filter whole. -/
theorem Scanner.nPlusOneIssues_filter (ctx : Option SymTab.SymbolTable)
    (cls fn d : String) (invs : List Scanner.Invocation) :
    (Scanner.nPlusOneIssues ctx cls fn d invs).filter (fun i => i.id == "N_PLUS_ONE")
      = ((invs.filter fun inv =>
          Scanner.nPlusOneSuspicious ctx cls (inv.object.getD "") inv.name).map
            (Scanner.nPlusOneIssueOf fn d)) := by
  rw [Scanner.filter_id_keep "N_PLUS_ONE" "N_PLUS_ONE" rfl _
    (Scanner.nPlusOneIssues_id ctx cls fn d invs)]
  exact Scanner.nPlusOneIssues_eq ctx cls fn d invs

theorem Scanner.nestedLoopIssues_filter_ne (q fn d : String) (ls : List Nat)
    (h : ("NESTED_LOOP" == q) = false) :
    (Scanner.nestedLoopIssues fn d ls).filter (fun i => i.id == q) = [] :=
  Scanner.filter_id_drop _ _ h _ (Scanner.nestedLoopIssues_id fn d ls)

theorem Scanner.simpleInvIssues_filter_ne (q rule_id : String) (sev : Scanner.Severity)
    (fn : String) (dF : Scanner.Invocation → String)
    (cF : Scanner.Invocation → Option String) (p : Scanner.Invocation → Bool)
    (invs : List Scanner.Invocation) (h : (rule_id == q) = false) :
    (Scanner.simpleInvIssues rule_id sev fn dF cF p invs).filter
      (fun i => i.id == q) = [] :=
  Scanner.filter_id_drop _ _ h _ (Scanner.simpleInvIssues_id rule_id sev fn dF cF p invs)

theorem Scanner.emptyCatchIssues_filter_ne (q fn : String) (cs : List (Nat × String))
    (h : ("EMPTY_CATCH" == q) = false) :
    (Scanner.emptyCatchIssues fn cs).filter (fun i => i.id == q) = [] :=
  Scanner.filter_id_drop _ _ h _ (Scanner.emptyCatchIssues_id fn cs)

/-- C1: in heuristic mode (no Symbol Table) the analyzer emits exactly one
`N_PLUS_ONE` Issue per loop-body direct method-invocation statement that the
heuristic accepts — the `findBy`/`saveAll`/`deleteBy`/... pattern family of
`dao_patterns`, extended (as the claim's own scenario `repo.save(u)` requires)
by the receiver-assisted branch for `repo`/`dao`/`mapper`/`service` receivers
— and no other rule of the catalog emits that id; a loop containing only
`System.out.println` produces zero Issues; the scenario
`for (User u : users) \x7b repo.save(u); \x7d` in class `Batch` yields exactly
one Issue with id `N_PLUS_ONE`, severity `P0`, and a description containing
`save`. -/
theorem C1_nplusone_heuristic :
    (∀ f : Scanner.JFile,
      (Scanner.rawIssues none f).filter (fun i => i.id == "N_PLUS_ONE")
        = ((Scanner.forCalls f.stmts).filter fun inv =>
              Scanner.nPlusOneSuspicious none f.fileStem (inv.object.getD "") inv.name).map
            (Scanner.nPlusOneIssueOf f.fileName "for 循环内调用方法 (可能是 N+1 问题)")
          ++ ((Scanner.whileCalls f.stmts).filter fun inv =>
              Scanner.nPlusOneSuspicious none f.fileStem (inv.object.getD "") inv.name).map
            (Scanner.nPlusOneIssueOf f.fileName "while 循环内调用方法 (可能是 N+1 问题)")
          ++ ((Scanner.foreachCalls f.stmts).filter fun inv =>
              Scanner.nPlusOneSuspicious none f.fileStem (inv.object.getD "") inv.name).map
            (Scanner.nPlusOneIssueOf f.fileName "foreach 循环内调用方法 (可能是 N+1 问题)"))
    ∧ (∀ cls receiver method, Scanner.nPlusOneSuspicious none cls receiver method
        = Scanner.heuristicSuspicious receiver method)
    ∧ Scanner.analyze_tree_with_context none Scanner.printlnFile = []
    ∧ Scanner.analyze_tree_with_context none Scanner.batchFile
        = [Scanner.nPlusOneIssueOf "Batch.java" "foreach 循环内调用方法 (可能是 N+1 问题)"
            ⟨some "repo", "save", 1, "repo.save(u)", 4⟩]
    ∧ (Scanner.nPlusOneIssueOf "Batch.java" "foreach 循环内调用方法 (可能是 N+1 问题)"
        ⟨some "repo", "save", 1, "repo.save(u)", 4⟩).id = "N_PLUS_ONE"
    ∧ (Scanner.nPlusOneIssueOf "Batch.java" "foreach 循环内调用方法 (可能是 N+1 问题)"
        ⟨some "repo", "save", 1, "repo.save(u)", 4⟩).severity = .P0
    ∧ Rs.containsStr
        (Scanner.nPlusOneIssueOf "Batch.java" "foreach 循环内调用方法 (可能是 N+1 问题)"
          ⟨some "repo", "save", 1, "repo.save(u)", 4⟩).description "save" = true := by
  refine ⟨?_, fun _ _ _ => rfl, by decide, by decide, rfl, rfl, by decide⟩
  intro f
  simp [Scanner.rawIssues, List.filter_append, Scanner.nPlusOneIssues_filter,
    Scanner.nestedLoopIssues_filter_ne, Scanner.simpleInvIssues_filter_ne,
    Scanner.emptyCatchIssues_filter_ne]

/-- C7: for every file, every catch clause whose body text passes the
empty-or-print test produces an `EMPTY_CATCH` Issue at the clause's line with
severity `P0` (among the issues assembled by the rule loop, before the
suppression filter); the input consisting of a single empty
`catch (Exception e) \x7b\x7d` yields exactly one Issue, id `EMPTY_CATCH`,
severity `P0`, at that line. -/
theorem C7_empty_catch :
    (∀ (ctx : Option SymTab.SymbolTable) (f : Scanner.JFile) (line : Nat) (body : String),
      (line, body) ∈ Scanner.allCatches f.stmts →
      Scanner.emptyCatchCond body = true →
      ∃ i ∈ Scanner.rawIssues ctx f,
        i.id = "EMPTY_CATCH" ∧ i.line = line ∧ i.severity = .P0)
    ∧ Scanner.analyze_tree_with_context none Scanner.emptyCatchFile
        = [{ id := "EMPTY_CATCH", severity := .P0, file := "Handler.java", line := 1,
             description := "catch 块可能为空或仅打印，请正确处理异常", context := none }] := by
  refine ⟨?_, by decide⟩
  intro ctx f line body hmem hcond
  refine ⟨{ id := "EMPTY_CATCH", severity := .P0, file := f.fileName, line := line,
            description := "catch 块可能为空或仅打印，请正确处理异常", context := none },
    ?_, rfl, rfl, rfl⟩
  have hin : ({ id := "EMPTY_CATCH", severity := .P0, file := f.fileName,
                line := line,
                description := "catch 块可能为空或仅打印，请正确处理异常",
                context := none } : Scanner.Issue)
      ∈ Scanner.emptyCatchIssues f.fileName (Scanner.allCatches f.stmts) :=
    List.mem_filterMap.mpr ⟨(line, body), hmem, by simp [hcond]⟩
  simp only [Scanner.rawIssues, List.mem_append]
  tauto

/-- Witness for C7: the general clause applied to the concrete empty-catch
file. -/
theorem C7_empty_catch_witness :
    ∃ i ∈ Scanner.rawIssues none Scanner.emptyCatchFile,
      i.id = "EMPTY_CATCH" ∧ i.line = 1 ∧ i.severity = .P0 :=
  C7_empty_catch.1 none Scanner.emptyCatchFile 1 "\x7b\x7d" (by decide) (by decide)

/-- C8: a file-level suppression short-circuits `analyze_tree_with_context` to
the empty issue list without inspecting individual issues; in particular, for
every file whose first line is a file-level suppression comment listing
`N_PLUS_ONE` (whatever else the file contains — e.g. an N+1-shaped loop),
analysis returns zero Issues. -/
theorem C8_file_level_suppression :
    (∀ (code : String) (issues : List Scanner.Issue),
      (Scanner.SuppressionContext.parse code).is_file_suppressed = true →
      Scanner.applySuppression code issues = [])
    ∧ (∀ (ctx : Option SymTab.SymbolTable) (f : Scanner.JFile) (ids : List String),
      Scanner.markerIds Scanner.fileMarker ((Rs.lines f.code).headD "") = some ids →
      "N_PLUS_ONE" ∈ ids →
      Scanner.analyze_tree_with_context ctx f = []) := by
  have short : ∀ (code : String) (issues : List Scanner.Issue),
      (Scanner.SuppressionContext.parse code).is_file_suppressed = true →
      Scanner.applySuppression code issues = [] := by
    intro code issues h
    simp [Scanner.applySuppression, h]
  refine ⟨short, ?_⟩
  intro ctx f ids h1 h2
  have hfs : (Scanner.SuppressionContext.parse f.code).is_file_suppressed = true := by
    rw [Scanner.SuppressionContext.parse]
    cases hl : Rs.lines f.code with
    | nil =>
      rw [hl] at h1
      rw [show Scanner.markerIds Scanner.fileMarker (([] : List String).headD "")
        = none from rfl] at h1
      cases h1
    | cons l rest =>
      rw [hl] at h1
      simp only [List.headD_cons] at h1
      simp only [Scanner.parseSupp, h1]
      cases ids with
      | nil => cases h2
      | cons a as => rfl
  exact short f.code _ hfs

/-- Witness for C8: the short-circuit applied to the concrete file whose first
line is `// radar-disable-file: N_PLUS_ONE` and which contains an N+1-shaped
loop. -/
theorem C8_file_level_suppression_witness :
    Scanner.analyze_tree_with_context none Scanner.suppressedFile = [] :=
  C8_file_level_suppression.2 none Scanner.suppressedFile ["N_PLUS_ONE"]
    (by decide) (by decide)

/-- C9: for a fixed source text, applying the suppression filter twice yields
the same issue list as applying it once (the Suppression Resolver is
idempotent). -/
theorem C9_suppression_idempotent :
    ∀ (code : String) (issues : List Scanner.Issue),
      Scanner.applySuppression code (Scanner.applySuppression code issues)
        = Scanner.applySuppression code issues := by
  intro code issues
  by_cases h : (Scanner.SuppressionContext.parse code).is_file_suppressed
  · simp [Scanner.applySuppression, h]
  · simp only [Scanner.applySuppression, Bool.not_eq_true] at h ⊢
    rw [h]
    simp [List.filter_filter]

/-- C2: with a Symbol Table in which `OrderService.repo : OrderRepository`
and `OrderRepository` is annotated `@Repository`, the N+1 handler accepts
`repo.findAll()` inside `OrderService` with confidence High; the same call
analyzed without a Symbol Table is accepted via name heuristics with
confidence Low; and in general every issue produced in semantic mode carries
`Some(High)` and every issue produced in heuristic mode carries `Some(Low)`,
so the surfaced confidence tag preserves the semantic-vs-heuristic
distinction. -/
theorem C2_confidence_semantic_vs_heuristic :
    (∀ (st : SymTab.SymbolTable) (cls fn : String) (inv : Scanner.Invocation)
        (i : Plugins.Issue),
      Plugins.nPlusOneHandler (some st) cls fn inv = some i →
      i.confidence = some .High)
    ∧ (∀ (cls fn : String) (inv : Scanner.Invocation) (i : Plugins.Issue),
      Plugins.nPlusOneHandler none cls fn inv = some i →
      i.confidence = some .Low)
    ∧ (Plugins.nPlusOneHandler (some Plugins.orderTable) "OrderService"
        "OrderService.java" Plugins.findAllInv).map (fun i => i.confidence)
        = some (some .High)
    ∧ (Plugins.nPlusOneHandler none "OrderService" "OrderService.java"
        Plugins.findAllInv).map (fun i => i.confidence) = some (some .Low) := by
  refine ⟨?_, ?_, by decide, by decide⟩
  · intro st cls fn inv i h
    simp only [Plugins.nPlusOneHandler] at h
    by_cases hc : st.is_dao_call cls (inv.object.getD "") inv.name
    · rw [if_pos hc] at h
      cases h
      rfl
    · rw [if_neg hc] at h
      cases h
  · intro cls fn inv i h
    simp only [Plugins.nPlusOneHandler] at h
    by_cases hc : Scanner.heuristicSuspicious (inv.object.getD "") inv.name
    · rw [if_pos hc] at h
      cases h
      rfl
    · rw [if_neg hc] at h
      cases h

/-- Witness for C2: the semantic-mode clause applied at the concrete
`OrderService` scenario. -/
theorem C2_confidence_witness :
    ({ id := "N_PLUS_ONE", severity := .P0, file := "OrderService.java", line := 7,
       column := 0,
       description := "循环内调用方法 (可能是 N+1 问题) (Method: findAll)",
       context := some "findAll",
       confidence := some .High } : Plugins.Issue).confidence = some .High :=
  C2_confidence_semantic_vs_heuristic.1 Plugins.orderTable "OrderService"
    "OrderService.java" Plugins.findAllInv _ (by decide)

/-- C5 counterexample: on a three-rule catalog whose middle rule's query fails
to compile, `compile_rules` returns the error (the whole catalog construction
aborts); it does NOT return a catalog of the two remaining rules. -/
theorem C5_compile_rules_counterexample :
    AstEngine.compile_rules AstEngine.demoCompileQ AstEngine.demoRuleDefs
      = .error "Failed to compile query for BROKEN_RULE: query syntax error"
    ∧ AstEngine.isOkE
        (AstEngine.compile_rules AstEngine.demoCompileQ AstEngine.demoRuleDefs)
      = false := by
  exact ⟨rfl, rfl⟩

/-- C5 (amended): a rule whose query fails to compile aborts construction of
the WHOLE rule catalog (`compile_rules` propagates the error, so the analyzer
is never built); the overall scan still proceeds — `radar_scan` silently
skips the failed analyzer construction and a readable Java file still
contributes its legacy regex issues. -/
theorem C5_compile_failure_aborts_catalog :
    (∀ (compileQ : String → Except String Unit) (defs : List AstEngine.RuleDef)
        (d : AstEngine.RuleDef) (e : String),
      d ∈ defs → compileQ d.query_str = .error e →
      ∃ msg, AstEngine.compile_rules compileQ defs = .error msg)
    ∧ (∀ (legacy : String → List AstEngine.AstIssue) (e : AstEngine.FileEntry)
        (content : String),
      e.ext = "java" → e.read_result = some content →
      AstEngine.scanEntry legacy none e = legacy content) := by
  constructor
  · intro compileQ defs
    induction defs with
    | nil =>
      intro d e hm _
      exact absurd hm (List.not_mem_nil d)
    | cons hd rest ih =>
      intro d e hm herr
      cases hq : compileQ hd.query_str with
      | error msg =>
        exact ⟨"Failed to compile query for " ++ hd.id ++ ": " ++ msg,
          by simp [AstEngine.compile_rules, hq]⟩
      | ok u =>
        rcases List.mem_cons.mp hm with rfl | hm'
        · rw [herr] at hq
          cases hq
        · obtain ⟨msg, hmsg⟩ := ih d e hm' herr
          exact ⟨msg, by simp [AstEngine.compile_rules, hq, hmsg]⟩
  · intro legacy e content hext hread
    simp [AstEngine.scanEntry, hext, hread]

/-- Witness for C5: the error propagation applied to the concrete demo
catalog. -/
theorem C5_compile_failure_witness :
    ∃ msg, AstEngine.compile_rules AstEngine.demoCompileQ AstEngine.demoRuleDefs
      = .error msg :=
  C5_compile_failure_aborts_catalog.1 AstEngine.demoCompileQ AstEngine.demoRuleDefs
    ⟨"BROKEN_RULE", .P0, "BAD", "d2"⟩ "query syntax error" (by decide) rfl

/-- C6 counterexample: scanning two enumerated Java files of which one is
unreadable returns the one successful file's issues, but the reported file
count is 2 — the number of enumerated files — not 1, the number of
successfully processed files. -/
theorem C6_file_count_counterexample :
    (AstEngine.radar_scan AstEngine.demoLegacy AstEngine.demoAnalyzer
      AstEngine.demoEntries).1 = 2
    ∧ (AstEngine.demoEntries.filter (fun e => e.read_result.isSome)).length = 1
    ∧ (AstEngine.radar_scan AstEngine.demoLegacy AstEngine.demoAnalyzer
        AstEngine.demoEntries).2 = [AstEngine.convert_issue AstEngine.demoIssue]
    ∧ (AstEngine.radar_scan AstEngine.demoLegacy AstEngine.demoAnalyzer
        AstEngine.demoEntries).1
      ≠ (AstEngine.demoEntries.filter (fun e => e.read_result.isSome)).length := by
  refine ⟨rfl, rfl, rfl, by decide⟩

theorem AstEngine.scanEntry_read_failure (legacy : String → List AstEngine.AstIssue)
    (analyzer : Option (String → Option (List Scanner.Issue)))
    (e : AstEngine.FileEntry) (h : e.read_result = none) :
    AstEngine.scanEntry legacy analyzer e = [] := by
  cases hext : (e.ext == "java") <;> simp [AstEngine.scanEntry, hext, h]

/-- C6 (amended): the scan still returns exactly the issues of the files that
were read and processed successfully (unreadable files contribute nothing and
do not abort the scan), but the file count reported is the number of
ENUMERATED files — failures included — not the number of successfully
processed files. -/
theorem C6_partial_results :
    (∀ (legacy : String → List AstEngine.AstIssue)
        (analyzer : Option (String → Option (List Scanner.Issue)))
        (entries : List AstEngine.FileEntry),
      (AstEngine.radar_scan legacy analyzer entries).1 = entries.length)
    ∧ (∀ (legacy : String → List AstEngine.AstIssue)
        (analyzer : Option (String → Option (List Scanner.Issue)))
        (entries : List AstEngine.FileEntry),
      (AstEngine.radar_scan legacy analyzer entries).2
        = (AstEngine.radar_scan legacy analyzer
            (entries.filter (fun e => e.read_result.isSome))).2) := by
  refine ⟨fun _ _ _ => rfl, ?_⟩
  intro legacy analyzer entries
  induction entries with
  | nil => rfl
  | cons e rest ih =>
    show (AstEngine.scanEntry legacy analyzer e
        :: rest.map (AstEngine.scanEntry legacy analyzer)).flatten = _
    cases hr : e.read_result with
    | none =>
      rw [List.flatten_cons, AstEngine.scanEntry_read_failure legacy analyzer e hr]
      rw [List.nil_append]
      have : e.read_result.isSome = false := by rw [hr]; rfl
      simpa [AstEngine.radar_scan, List.filter_cons, this] using ih
    | some content =>
      have : e.read_result.isSome = true := by rw [hr]; rfl
      simp only [AstEngine.radar_scan, List.filter_cons, this, if_true] at ih ⊢
      rw [List.flatten_cons]
      simp only [List.map_cons, List.flatten_cons] at ih ⊢
      rw [ih]

theorem MergeModel.outSum_appendEntry {κ ν : Type} [BEq κ]
    (l : List (κ × List ν)) (k : κ) (vs : List ν) :
    MergeModel.outSum (MergeModel.appendEntry l k vs)
      = MergeModel.outSum l + vs.length := by
  induction l with
  | nil => simp [MergeModel.appendEntry, MergeModel.outSum]
  | cons kv rest ih =>
    obtain ⟨k', vs'⟩ := kv
    by_cases h : (k' == k) = true
    · simp [MergeModel.appendEntry, h, MergeModel.outSum]
      omega
    · rw [MergeModel.appendEntry, if_neg h]
      simp [MergeModel.outSum, ih]
      omega

theorem MergeModel.outSum_fold {κ ν : Type} [BEq κ]
    (entries : List (κ × List ν)) (acc : List (κ × List ν)) :
    MergeModel.outSum
        (entries.foldl (fun a kv => MergeModel.appendEntry a kv.1 kv.2) acc)
      = MergeModel.outSum acc + MergeModel.outSum entries := by
  induction entries generalizing acc with
  | nil => simp [MergeModel.outSum]
  | cons kv rest ih =>
    rw [List.foldl_cons, ih, MergeModel.outSum_appendEntry, MergeModel.outSum]
    omega

/-- The Call-Graph merge adds edge counts. -/
theorem MergeModel.edgeCount_merge (g h : Taint.CallGraph) :
    MergeModel.edgeCount (MergeModel.mergeCG g h)
      = MergeModel.edgeCount g + MergeModel.edgeCount h :=
  MergeModel.outSum_fold h.outgoing g.outgoing

theorem MergeModel.hasKey_cons {κ ν : Type} [BEq κ]
    (kv : κ × ν) (rest : List (κ × ν)) (n : κ) :
    MergeModel.hasKey (kv :: rest) n = ((n == kv.1) || MergeModel.hasKey rest n) := by
  obtain ⟨k, v⟩ := kv
  cases hn : (n == k) <;> simp [MergeModel.hasKey, List.lookup, hn]

theorem MergeModel.hasKey_insertA {κ ν : Type} [BEq κ] [LawfulBEq κ]
    (l : List (κ × ν)) (k : κ) (v : ν) (n : κ) :
    MergeModel.hasKey (SymTab.insertA l k v) n = ((n == k) || MergeModel.hasKey l n) := by
  induction l with
  | nil =>
    cases hn : (n == k) <;> simp [SymTab.insertA, MergeModel.hasKey, List.lookup, hn]
  | cons kv rest ih =>
    obtain ⟨k', v'⟩ := kv
    by_cases h : (k' == k) = true
    · have hk : k' = k := eq_of_beq h
      subst hk
      rw [SymTab.insertA, if_pos h, MergeModel.hasKey_cons, MergeModel.hasKey_cons]
      cases hn : (n == k') <;> simp [hn]
    · rw [SymTab.insertA, if_neg h, MergeModel.hasKey_cons, MergeModel.hasKey_cons, ih]
      cases hn : (n == k') <;> cases hm : (n == k) <;> simp [hn, hm]

theorem MergeModel.hasKey_fold {κ ν : Type} [BEq κ] [LawfulBEq κ]
    (entries : List (κ × ν)) (acc : List (κ × ν)) (n : κ) :
    MergeModel.hasKey
        (entries.foldl (fun a kv => SymTab.insertA a kv.1 kv.2) acc) n
      = (MergeModel.hasKey acc n || MergeModel.hasKey entries n) := by
  induction entries generalizing acc with
  | nil => simp [MergeModel.hasKey, List.lookup]
  | cons kv rest ih =>
    rw [List.foldl_cons, ih, MergeModel.hasKey_insertA, MergeModel.hasKey_cons]
    cases h1 : (n == kv.1) <;> cases h2 : MergeModel.hasKey acc n <;> simp [h1, h2]

/-- The Symbol-Table merge unions the class-name key sets. -/
theorem MergeModel.hasClass_merge (a b : SymTab.SymbolTable) (n : String) :
    MergeModel.hasClass (MergeModel.mergeSym a b) n
      = (MergeModel.hasClass a n || MergeModel.hasClass b n) :=
  MergeModel.hasKey_fold b.classes a.classes n

/-- C10: regrouping the binary merge leaves the Call Graph's total edge count
and the Symbol Table's class-name key set unchanged: both grouping orders of
three partial results agree on edge count and on class-name membership
(values may differ only on name collisions, where either entry may win); the
merge is additive on edges and a union on class names. -/
theorem C10_merge_grouping_invariants :
    (∀ a b c : Taint.CallGraph,
      MergeModel.edgeCount (MergeModel.mergeCG (MergeModel.mergeCG a b) c)
        = MergeModel.edgeCount (MergeModel.mergeCG a (MergeModel.mergeCG b c)))
    ∧ (∀ (a b c : SymTab.SymbolTable) (n : String),
      MergeModel.hasClass (MergeModel.mergeSym (MergeModel.mergeSym a b) c) n
        = MergeModel.hasClass (MergeModel.mergeSym a (MergeModel.mergeSym b c)) n)
    ∧ (∀ g h : Taint.CallGraph,
      MergeModel.edgeCount (MergeModel.mergeCG g h)
        = MergeModel.edgeCount g + MergeModel.edgeCount h)
    ∧ (∀ (a b : SymTab.SymbolTable) (n : String),
      MergeModel.hasClass (MergeModel.mergeSym a b) n
        = (MergeModel.hasClass a n || MergeModel.hasClass b n)) := by
  refine ⟨?_, ?_, MergeModel.edgeCount_merge, MergeModel.hasClass_merge⟩
  · intro a b c
    rw [MergeModel.edgeCount_merge, MergeModel.edgeCount_merge,
      MergeModel.edgeCount_merge, MergeModel.edgeCount_merge, Nat.add_assoc]
  · intro a b c n
    rw [MergeModel.hasClass_merge, MergeModel.hasClass_merge,
      MergeModel.hasClass_merge, MergeModel.hasClass_merge, Bool.or_assoc]
